import Mathlib

/-!
Verification development for the class-arrangement scheduling system.

Shallow embedding of the repository's data model (src/src/data.py, src/src/models.py),
variable-space builder and solution extraction (src/src/solver.py), and the compiled
hard-constraint families (src/src/constraints.py).  Machine booleans of the CP-SAT
model are modelled as an `Assignment` function; each constraint family becomes a
boolean predicate on assignments, projected onto the schedule variables (reified
auxiliary variables of the CP model are forced to equal the boolean expressions they
reify, so the projection is exact).  String names of classes, courses and teachers
from data.py are represented by finite enumerations; the comma-separated teacher
field is represented by the list that `Course.get_teachers` parses it into.
-/

namespace ClassSched

/-- Class-group names, mirroring the keys of `data.get_class_groups()`. -/
inductive CName
  | c9A | c9B | c9C
  | c9EngA | c9EngB | c9EngC | c9EngD | c9EngE
  | c10A | c10B | c10C
  | cEALA | cEALB | cEALC
  | c11A | c11B | c12A | c12B
deriving DecidableEq, Repr, Fintype

/-- Course names appearing in data.py. -/
inductive KName
  | algebra | social | psychology | physics | chemistry | biology | geography | art | pe
  | english | eal | worldHistory | psychGeo | spanish | preCal | microEcon | physBio
  | literature | calABBC | group1AP | group2AP | group3AP | bcStats | apSeminar | counseling
deriving DecidableEq, Repr, Fintype

/-- Teacher names appearing in data.py. -/
inductive TName
  | yuhan | darin | chloe | guo | shao | zhao | manuel | shiwen | wen
  | lzy | cyf | ezio | lucy | neil | ak | dan | shi | song | yan
deriving DecidableEq, Repr, Fintype

/-- Mirrors `models.Course`; `teachers` is the result of `get_teachers()` on the
comma-separated teacher string. -/
structure Course where
  name : KName
  periods_per_week : Nat
  teachers : List TName
  prefer_consecutive : Bool := false
deriving DecidableEq, Repr

/-- Mirrors `models.ClassGroup` (name, grade, course dictionary in insertion order). -/
structure ClassGroup where
  cname : CName
  grade : Nat
  courses : List Course
deriving DecidableEq, Repr

/-- Mirrors `models.JointSession`. -/
structure JointSession where
  classes : List CName
  course_name : KName
  teachers : List (List TName)
deriving DecidableEq, Repr

/-- Mirrors `data.get_time_slots()`: Mon 6, Tue 8, Wed 8, Thu 6, Fri 7 periods. -/
def periodsPerDay (d : Nat) : Nat :=
  match d with
  | 0 => 6
  | 1 => 8
  | 2 => 8
  | 3 => 6
  | 4 => 7
  | _ => 0

/-- All (day, period) pairs of the week, in the order `data.get_time_slots()`
generates them (listed explicitly; `timeSlots_generated` below checks the list
against the generating loops of the source). -/
def timeSlots : List (Nat × Nat) :=
  [(0, 1), (0, 2), (0, 3), (0, 4), (0, 5), (0, 6),
   (1, 1), (1, 2), (1, 3), (1, 4), (1, 5), (1, 6),
   (1, 7), (1, 8), (2, 1), (2, 2), (2, 3), (2, 4),
   (2, 5), (2, 6), (2, 7), (2, 8), (3, 1), (3, 2),
   (3, 3), (3, 4), (3, 5), (3, 6), (4, 1), (4, 2),
   (4, 3), (4, 4), (4, 5), (4, 6), (4, 7)]

/-- Mirrors `data.get_class_groups()`. -/
def classGroups : List ClassGroup :=
  [ ⟨.c9A, 9,
      [⟨.algebra, 5, [.yuhan], false⟩, ⟨.social, 4, [.darin], false⟩,
       ⟨.psychology, 3, [.chloe], false⟩, ⟨.physics, 3, [.guo], false⟩,
       ⟨.chemistry, 3, [.shao], false⟩, ⟨.biology, 3, [.zhao], false⟩,
       ⟨.geography, 2, [.manuel], false⟩, ⟨.art, 2, [.shiwen], true⟩,
       ⟨.pe, 2, [.wen], false⟩]⟩,
    ⟨.c9B, 9,
      [⟨.algebra, 5, [.yuhan], false⟩, ⟨.social, 4, [.darin], false⟩,
       ⟨.psychology, 3, [.chloe], false⟩, ⟨.physics, 3, [.guo], false⟩,
       ⟨.chemistry, 3, [.shao], false⟩, ⟨.biology, 3, [.zhao], false⟩,
       ⟨.geography, 2, [.manuel], false⟩, ⟨.art, 2, [.shiwen], true⟩,
       ⟨.pe, 2, [.wen], false⟩]⟩,
    ⟨.c9C, 9,
      [⟨.algebra, 5, [.yuhan], false⟩, ⟨.social, 4, [.darin], false⟩,
       ⟨.psychology, 3, [.chloe], false⟩, ⟨.physics, 3, [.guo], false⟩,
       ⟨.chemistry, 3, [.shao], false⟩, ⟨.biology, 3, [.zhao], false⟩,
       ⟨.geography, 2, [.manuel], false⟩, ⟨.art, 2, [.shiwen], true⟩,
       ⟨.pe, 2, [.wen], false⟩]⟩,
    ⟨.c9EngA, 9, [⟨.english, 6, [.lzy], false⟩]⟩,
    ⟨.c9EngB, 9, [⟨.english, 6, [.cyf], false⟩]⟩,
    ⟨.c9EngC, 9, [⟨.english, 6, [.ezio], false⟩]⟩,
    ⟨.c9EngD, 9, [⟨.english, 6, [.ezio], false⟩]⟩,
    ⟨.c9EngE, 9, [⟨.english, 6, [.lzy], false⟩]⟩,
    ⟨.c10A, 10,
      [⟨.english, 5, [.lucy], false⟩, ⟨.worldHistory, 3, [.neil], false⟩,
       ⟨.psychGeo, 3, [.chloe, .manuel], false⟩, ⟨.spanish, 2, [.ak], false⟩,
       ⟨.preCal, 5, [.dan], false⟩, ⟨.microEcon, 5, [.shi], false⟩,
       ⟨.chemistry, 3, [.shao], false⟩, ⟨.physBio, 3, [.song], false⟩,
       ⟨.art, 2, [.shiwen], true⟩, ⟨.pe, 2, [.wen], false⟩]⟩,
    ⟨.c10B, 10,
      [⟨.english, 5, [.lucy], false⟩, ⟨.worldHistory, 3, [.neil], false⟩,
       ⟨.psychGeo, 3, [.chloe, .manuel], false⟩, ⟨.spanish, 2, [.ak], false⟩,
       ⟨.preCal, 5, [.dan], false⟩, ⟨.microEcon, 5, [.shi], false⟩,
       ⟨.chemistry, 3, [.shao], false⟩, ⟨.physBio, 3, [.song], false⟩,
       ⟨.art, 2, [.shiwen], true⟩, ⟨.pe, 2, [.wen], false⟩]⟩,
    ⟨.c10C, 10,
      [⟨.english, 5, [.lucy], false⟩, ⟨.worldHistory, 3, [.neil], false⟩,
       ⟨.psychGeo, 3, [.chloe, .manuel], false⟩, ⟨.spanish, 2, [.ak], false⟩,
       ⟨.preCal, 5, [.dan], false⟩, ⟨.microEcon, 5, [.shi], false⟩,
       ⟨.chemistry, 3, [.shao], false⟩, ⟨.physBio, 3, [.zhao], false⟩,
       ⟨.art, 2, [.shiwen], true⟩, ⟨.pe, 2, [.wen], false⟩]⟩,
    ⟨.cEALA, 10, [⟨.eal, 3, [.ezio], false⟩]⟩,
    ⟨.cEALB, 10, [⟨.eal, 3, [.cyf], false⟩]⟩,
    ⟨.cEALC, 10, [⟨.eal, 6, [.lzy], false⟩]⟩,
    ⟨.c11A, 11,
      [⟨.english, 5, [.cyf], false⟩, ⟨.literature, 3, [.cyf], false⟩,
       ⟨.spanish, 3, [.ak], false⟩, ⟨.calABBC, 5, [.yan, .song], false⟩,
       ⟨.group1AP, 5, [.guo, .zhao, .shiwen], false⟩,
       ⟨.group2AP, 5, [.neil, .guo], false⟩,
       ⟨.group3AP, 5, [.chloe, .manuel], false⟩,
       ⟨.art, 2, [.shiwen], true⟩, ⟨.pe, 2, [.wen], false⟩]⟩,
    ⟨.c11B, 11,
      [⟨.english, 5, [.cyf], false⟩, ⟨.literature, 3, [.cyf], false⟩,
       ⟨.spanish, 3, [.ak], false⟩, ⟨.calABBC, 5, [.yan], false⟩,
       ⟨.group1AP, 5, [.guo, .zhao, .shiwen], false⟩,
       ⟨.group2AP, 5, [.neil, .guo], false⟩,
       ⟨.group3AP, 5, [.chloe, .manuel], false⟩,
       ⟨.art, 2, [.shiwen], true⟩, ⟨.pe, 2, [.wen], false⟩]⟩,
    ⟨.c12A, 12,
      [⟨.spanish, 3, [.ak], false⟩, ⟨.bcStats, 5, [.yan], false⟩,
       ⟨.apSeminar, 5, [.ezio, .lucy, .darin], false⟩,
       ⟨.group1AP, 5, [.guo, .zhao, .shiwen], false⟩,
       ⟨.group2AP, 5, [.neil, .guo], false⟩,
       ⟨.group3AP, 5, [.chloe, .manuel], false⟩,
       ⟨.pe, 2, [.wen], false⟩, ⟨.counseling, 1, [.wen], false⟩]⟩,
    ⟨.c12B, 12,
      [⟨.spanish, 3, [.ak], false⟩, ⟨.bcStats, 5, [.yuhan], false⟩,
       ⟨.apSeminar, 5, [.ezio, .lucy, .darin], false⟩,
       ⟨.group1AP, 5, [.guo, .zhao, .shiwen], false⟩,
       ⟨.group2AP, 5, [.neil, .guo], false⟩,
       ⟨.group3AP, 5, [.chloe, .manuel], false⟩,
       ⟨.pe, 2, [.wen], false⟩, ⟨.counseling, 1, [.wen], false⟩]⟩ ]

/-- Mirrors `data.get_joint_sessions()`. -/
def jointSessions : List JointSession :=
  [ ⟨[.c9EngA, .c9EngB, .c9EngC], .english, [[.lzy], [.cyf], [.ezio]]⟩,
    ⟨[.c9EngD, .c9EngE], .english, [[.ezio], [.lzy]]⟩,
    ⟨[.c10A, .c10B, .c10C], .psychGeo,
      [[.chloe, .manuel], [.chloe, .manuel], [.chloe, .manuel]]⟩,
    ⟨[.c10A, .c10C], .physBio, [[.song], [.zhao]]⟩,
    ⟨[.c12A, .c12B], .bcStats, [[.yan], [.yuhan]]⟩,
    ⟨[.c12A, .c12B], .apSeminar, [[.ezio, .lucy, .darin], [.ezio, .lucy, .darin]]⟩,
    ⟨[.c11A, .c11B, .c12A, .c12B], .group1AP,
      [[.guo, .zhao, .shiwen], [.guo, .zhao, .shiwen], [.guo, .zhao, .shiwen],
       [.guo, .zhao, .shiwen]]⟩,
    ⟨[.c11A, .c11B, .c12A, .c12B], .group2AP,
      [[.neil, .guo], [.neil, .guo], [.neil, .guo], [.neil, .guo]]⟩,
    ⟨[.c11A, .c11B, .c12A, .c12B], .group3AP,
      [[.chloe, .manuel], [.chloe, .manuel], [.chloe, .manuel], [.chloe, .manuel]]⟩ ]

/-- Mirrors `data.get_excluded_time_slots()`: Tue 7-8 for grades 9-10 (including
EAL and tracking-English classes), Fri 7 for grade 12, nothing for grade 11. -/
def excludedTimeSlots (c : CName) : List (Nat × Nat) :=
  match c with
  | .c11A => []
  | .c11B => []
  | .c12A => [(4, 7)]
  | .c12B => [(4, 7)]
  | _ => [(1, 7), (1, 8)]

/-- Mirrors `data.get_required_time_slots()`: grade 12 has PE pinned to Tue 7 and
Counseling pinned to Tue 8. -/
def requiredTimeSlots (c : CName) : List ((Nat × Nat) × KName) :=
  match c with
  | .c12A => [((1, 7), .pe), ((1, 8), .counseling)]
  | .c12B => [((1, 7), .pe), ((1, 8), .counseling)]
  | _ => []

/-- Course list of a class, mirroring `ClassGroup.courses` lookup by class name. -/
def coursesOf (c : CName) : List Course :=
  match classGroups.find? (fun g => g.cname == c) with
  | some g => g.courses
  | none => []

/-- The slot check of `_create_variables` for required slots: a slot that is
reserved for a different course of the class rejects the variable. -/
def requiredOk (c : CName) (k : KName) (d p : Nat) : Bool :=
  match (requiredTimeSlots c).lookup (d, p) with
  | some k2 => k2 == k
  | none => true

/-- The class offers the course. -/
def hasCourse (c : CName) (k : KName) : Bool :=
  (coursesOf c).any (fun co => co.name == k)

/-- Existence of the schedule variable keyed `(class, course, day, period)`,
characterising the sparse variable space built by `_create_variables`. -/
def hasVar (c : CName) (k : KName) (d p : Nat) : Bool :=
  hasCourse c k && timeSlots.contains (d, p) &&
    !((excludedTimeSlots c).contains (d, p)) && requiredOk c k d p

/-- The variable keys created by `ClassScheduleSolver._create_variables`, in the
order the Python loops create them. -/
def createdVars : List (CName × KName × Nat × Nat) :=
  classGroups.flatMap (fun g =>
    g.courses.flatMap (fun co =>
      timeSlots.filterMap (fun s =>
        if !((excludedTimeSlots g.cname).contains s) && requiredOk g.cname co.name s.1 s.2 then
          some (g.cname, co.name, s.1, s.2)
        else none)))

/-- An assignment of boolean values to (class, course, day, period) keys, the
abstraction of a CP-SAT valuation of the schedule variables. -/
def Assignment : Type := CName → KName → Nat → Nat → Bool

/-- The class takes the course at the slot: the schedule variable exists and is 1.
Keys absent from the sparse variable space can never be scheduled. -/
def scheduled (A : Assignment) (c : CName) (k : KName) (d p : Nat) : Bool :=
  hasVar c k d p && A c k d p

/-- Number of slots in the week at which the class takes the course. -/
def weeklyCount (A : Assignment) (c : CName) (k : KName) : Nat :=
  timeSlots.countP (fun s => scheduled A c k s.1 s.2)

/-- All (class, course) pairs of the catalog. -/
def catalogPairs : List (CName × KName) :=
  classGroups.flatMap (fun g => g.courses.map (fun co => (g.cname, co.name)))

/-- Weekly periods of a course of a class per the catalog. -/
def ppwOf (c : CName) (k : KName) : Nat :=
  match (coursesOf c).find? (fun co => co.name == k) with
  | some co => co.periods_per_week
  | none => 0

end ClassSched

namespace ClassSched

/-! ## Compiled hard-constraint families (src/src/constraints.py)

Each predicate states that an assignment satisfies every constraint the
corresponding `add_*` method emits.  Guards (`if key in schedule_vars`,
excluded-slot skips, emptiness checks) are mirrored from the source. -/

/-- Slots over which `add_basic_constraints` (A1) collects variables for a
class/course: non-excluded slots whose key exists. -/
def varSlots (c : CName) (k : KName) : List (Nat × Nat) :=
  timeSlots.filter (fun s => !((excludedTimeSlots c).contains s) && hasVar c k s.1 s.2)

/-- Family A1 of `add_basic_constraints`: each class has exactly
`periods_per_week` periods of each course (emitted only when the variable list
is non-empty). -/
def satBasicLoad (A : Assignment) : Bool :=
  classGroups.all (fun g => g.courses.all (fun co =>
    (varSlots g.cname co.name).isEmpty ||
      ((varSlots g.cname co.name).countP (fun s => A g.cname co.name s.1 s.2)
        == co.periods_per_week)))

/-- Family A2 of `add_basic_constraints`: at most one course per class per slot
(emitted only when more than one variable exists at the slot). -/
def satSlotExclusive (A : Assignment) : Bool :=
  classGroups.all (fun g => timeSlots.all (fun s =>
    (excludedTimeSlots g.cname).contains s ||
      (decide ((g.courses.filter (fun co => hasVar g.cname co.name s.1 s.2)).length ≤ 1) ||
        decide (((g.courses.filter (fun co => hasVar g.cname co.name s.1 s.2)).countP
            (fun co => A g.cname co.name s.1 s.2)) ≤ 1))))

/-- The `valid_slot` test of `add_joint_session_constraints`: no member has the
slot excluded and every member has the variable. -/
def jointValid (js : JointSession) (s : Nat × Nat) : Bool :=
  js.classes.all (fun c =>
    !((excludedTimeSlots c).contains s) && hasVar c js.course_name s.1 s.2)

/-- Family B, `add_joint_session_constraints`: at every valid slot all members
of a joint session carry the same value for the session course. -/
def satJoint (A : Assignment) : Bool :=
  jointSessions.all (fun js => timeSlots.all (fun s =>
    !(jointValid js s) ||
      (match js.classes with
       | [] => true
       | c0 :: rest =>
         rest.all (fun c => A c js.course_name s.1 s.2 == A c0 js.course_name s.1 s.2))))

/-- Teacher-to-(class, course) map of `_build_teacher_to_classes`, in catalog
insertion order (the Python set's iteration order is unspecified; only sums over
the collected variables matter to the constraints). -/
def teacherClasses (t : TName) : List (CName × KName) :=
  classGroups.flatMap (fun g => g.courses.filterMap (fun co =>
    if co.teachers.contains t then some (g.cname, co.name) else none))

/-- First joint session containing the class/course, as `get_joint_session`. -/
def findJoint (c : CName) (k : KName) : Option JointSession :=
  jointSessions.find? (fun js => js.classes.contains c && js.course_name == k)

/-- Mirrors `_get_teacher_joint_sessions`: Wen teaches 12-A and 12-B PE and
Counseling together (the list deliberately repeats the pair, as the source does). -/
def teacherJointSessions (t : TName) : List (List CName) :=
  match t with
  | .wen => [[.c12A, .c12B], [.c12A, .c12B]]
  | _ => []

/-- All teachers of the catalog (key set of the teacher map). -/
def allTeachers : List TName :=
  [.yuhan, .darin, .chloe, .guo, .shao, .zhao, .manuel, .shiwen, .wen,
   .lzy, .cyf, .ezio, .lucy, .neil, .ak, .dan, .shi, .song, .yan]

/-- The variable-collection loop of `add_teacher_conflict_constraints` for one
teacher and slot: joint sessions are deduplicated by (course, member set) and
contribute one representative variable; teacher-level joint sessions likewise;
all other pairs contribute their own variable. -/
def teacherScan (A : Assignment) (t : TName) (d p : Nat) :
    List (CName × KName) → List (KName × List CName) → List Bool
  | [], _ => []
  | (c, k) :: rest, counted =>
    if (excludedTimeSlots c).contains (d, p) then teacherScan A t d p rest counted
    else if !(hasVar c k d p) then teacherScan A t d p rest counted
    else
      match findJoint c k with
      | some js =>
        if counted.contains (js.course_name, js.classes) then
          teacherScan A t d p rest counted
        else
          A c k d p :: teacherScan A t d p rest ((js.course_name, js.classes) :: counted)
      | none =>
        match (teacherJointSessions t).find? (fun scl =>
            scl.contains c && scl.all (fun c2 => (teacherClasses t).contains (c2, k))) with
        | some scl =>
          if counted.contains (k, scl) then teacherScan A t d p rest counted
          else A c k d p :: teacherScan A t d p rest ((k, scl) :: counted)
        | none => A c k d p :: teacherScan A t d p rest counted

/-- Family C, `add_teacher_conflict_constraints`: per teacher and slot, the sum
of the collected unit variables is at most 1 (emitted only when more than one
variable was collected). -/
def satTeacher (A : Assignment) : Bool :=
  allTeachers.all (fun t => timeSlots.all (fun s =>
    let vars := teacherScan A t s.1 s.2 (teacherClasses t) []
    decide (vars.length ≤ 1) || decide (vars.countP id ≤ 1)))

/-- Family E1 of `add_special_time_constraints`: required slots are pinned to 1
when the variable exists. -/
def satRequired (A : Assignment) : Bool :=
  classGroups.all (fun g => (requiredTimeSlots g.cname).all (fun r =>
    !(hasVar g.cname r.2 r.1.1 r.1.2) || A g.cname r.2 r.1.1 r.1.2))

/-- The administrative class / companion EAL class pairs of constraint E3. -/
def e3Pairs : List (CName × CName) := [(.c10A, .cEALA), (.c10B, .cEALB), (.c10C, .cEALC)]

/-- Family E3: `AddImplication(psych, eal)` per slot where both variables exist. -/
def satE3 (A : Assignment) : Bool :=
  timeSlots.all (fun s => e3Pairs.all (fun pr =>
    !(hasVar pr.1 .psychGeo s.1 s.2 && hasVar pr.2 .eal s.1 s.2) ||
      (!(A pr.1 .psychGeo s.1 s.2) || A pr.2 .eal s.1 s.2)))

/-- One overlap term of constraint E4; the reified AND/OR auxiliary variables are
projected to the boolean expressions they are forced to equal. -/
def e4Term (A : Assignment) (s : Nat × Nat) : Option Bool :=
  if !(hasVar .cEALC .eal s.1 s.2) then none
  else if hasVar .c10A .physBio s.1 s.2 && hasVar .c10C .physBio s.1 s.2 then
    some (A .cEALC .eal s.1 s.2 && (A .c10A .physBio s.1 s.2 || A .c10C .physBio s.1 s.2))
  else if hasVar .c10A .physBio s.1 s.2 then
    some (A .cEALC .eal s.1 s.2 && A .c10A .physBio s.1 s.2)
  else if hasVar .c10C .physBio s.1 s.2 then
    some (A .cEALC .eal s.1 s.2 && A .c10C .physBio s.1 s.2)
  else none

/-- The E4 overlap-term list across the week. -/
def e4Terms (A : Assignment) : List Bool := timeSlots.filterMap (e4Term A)

/-- Family E4: exactly 3 overlaps of 10-EAL-C EAL with 10-A/10-C Phys&Bio
(emitted only when at least one term exists). -/
def satE4 (A : Assignment) : Bool :=
  (e4Terms A).isEmpty || ((e4Terms A).countP id == 3)

/-- The per-day period bound of constraints.py,
`6 if day in [0,3] else (8 if day in [1,2] else 7)`. -/
def dayPeriodsMax (d : Nat) : Nat :=
  if d == 0 || d == 3 then 6 else if d == 1 || d == 2 then 8 else 7

/-- Periods of one day whose slot is not excluded and whose variable exists, in
increasing order, as collected by the daily-limit loops. -/
def dayVars (c : CName) (k : KName) (d : Nat) : List Nat :=
  (List.range (dayPeriodsMax d)).filterMap (fun i =>
    if !((excludedTimeSlots c).contains (d, i + 1)) && hasVar c k d (i + 1) then
      some (i + 1)
    else none)

/-- Number of periods of the day at which the class takes the course. -/
def dayCount (A : Assignment) (c : CName) (k : KName) (d : Nat) : Nat :=
  (dayVars c k d).countP (fun p => A c k d p)

/-- EAL classes are skipped by `add_daily_course_constraints`. -/
def ealClasses : List CName := [.cEALA, .cEALB, .cEALC]

/-- Family F, `add_daily_course_constraints`: at most 2 periods per day for
courses with 5+ weekly periods and for Art, at most 1 otherwise; EAL classes
skipped; emitted only for days with at least one variable. -/
def satDaily (A : Assignment) : Bool :=
  classGroups.all (fun g => (List.range 5).all (fun d => g.courses.all (fun co =>
    ealClasses.contains g.cname ||
      (dayVars g.cname co.name d).isEmpty ||
      (if co.periods_per_week ≥ 5 || co.name == .art then
        decide (dayCount A g.cname co.name d ≤ 2)
      else
        decide (dayCount A g.cname co.name d ≤ 1)))))

end ClassSched

namespace ClassSched

/-- Family H, `add_ap_seminar_english_sync_constraint`: 11-A English equals
12-A AP Seminar at every slot where both variables exist. -/
def satAPSemEnglishSync (A : Assignment) : Bool :=
  timeSlots.all (fun s =>
    !(hasVar .c12A .apSeminar s.1 s.2 && hasVar .c11A .english s.1 s.2) ||
      (A .c11A .english s.1 s.2 == A .c12A .apSeminar s.1 s.2))

/-- Family I, `add_lucy_ap_seminar_english_conflict`: 10th-grade English and
12th-grade AP Seminar (both taught by Lucy) never coincide. -/
def satLucyConflict (A : Assignment) : Bool :=
  timeSlots.all (fun s => [CName.c10A, .c10B, .c10C].all (fun c10 =>
    !(hasVar c10 .english s.1 s.2 && hasVar .c12A .apSeminar s.1 s.2) ||
      !(A c10 .english s.1 s.2 && A .c12A .apSeminar s.1 s.2)))

/-- Family J, `add_guo_conflict_constraint`: 9th-grade Physics never coincides
with Group 1/2 AP (all taught by Guo). -/
def satGuoConflict (A : Assignment) : Bool :=
  timeSlots.all (fun s => [CName.c11A, .c11B, .c12A, .c12B].all (fun gc =>
    [KName.group1AP, .group2AP].all (fun gk =>
      [CName.c9A, .c9B, .c9C].all (fun c9 =>
        !(hasVar c9 .physics s.1 s.2 && hasVar gc gk s.1 s.2) ||
          !(A c9 .physics s.1 s.2 && A gc gk s.1 s.2)))))

/-- Family K, `add_darin_ap_seminar_social_constraint`: 12th-grade AP Seminar and
9th-grade Social (both taught by Darin) never coincide. -/
def satDarinConflict (A : Assignment) : Bool :=
  timeSlots.all (fun s => [CName.c12A, .c12B].all (fun c12 =>
    [CName.c9A, .c9B, .c9C].all (fun c9 =>
      !(hasVar c12 .apSeminar s.1 s.2 && hasVar c9 .social s.1 s.2) ||
        !(A c12 .apSeminar s.1 s.2 && A c9 .social s.1 s.2))))

/-- Family L, `add_english_9a_10a_sync_constraint`: 10-A English implies 9-Eng-A
English at the same slot. -/
def satEnglishSync910 (A : Assignment) : Bool :=
  timeSlots.all (fun s =>
    !(hasVar .c10A .english s.1 s.2 && hasVar .c9EngA .english s.1 s.2) ||
      (!(A .c10A .english s.1 s.2) || A .c9EngA .english s.1 s.2))

/-- Family M, `add_english_literature_conflict_constraint`: 9-Eng-A/10-A English
never coincides with 11-A/B Literature. -/
def satEnglishLitConflict (A : Assignment) : Bool :=
  timeSlots.all (fun s => [CName.c9EngA, .c10A].all (fun ce =>
    [CName.c11A, .c11B].all (fun c11 =>
      !(hasVar ce .english s.1 s.2 && hasVar c11 .literature s.1 s.2) ||
        !(A ce .english s.1 s.2 && A c11 .literature s.1 s.2))))

/-- Family N, `add_english_ap_seminar_conflict_constraint`: 9-Eng-A/10-A English
never coincides with 12-A/B AP Seminar. -/
def satEnglishSemConflict (A : Assignment) : Bool :=
  timeSlots.all (fun s => [CName.c9EngA, .c10A].all (fun ce =>
    [CName.c12A, .c12B].all (fun c12 =>
      !(hasVar ce .english s.1 s.2 && hasVar c12 .apSeminar s.1 s.2) ||
        !(A ce .english s.1 s.2 && A c12 .apSeminar s.1 s.2))))

/-- Family O, `add_group2_ap_10a_requirement_constraint`: a scheduled Group 2 AP
forces 10-A into Chemistry or Phys&Bio at the same slot, degrading to a plain
implication when only one of the two variables exists. -/
def satGroup2Requirement (A : Assignment) : Bool :=
  timeSlots.all (fun s => [CName.c11A, .c11B, .c12A, .c12B].all (fun gc =>
    !(hasVar gc .group2AP s.1 s.2) ||
      (if hasVar .c10A .chemistry s.1 s.2 && hasVar .c10A .physBio s.1 s.2 then
        !(A gc .group2AP s.1 s.2) ||
          (A .c10A .chemistry s.1 s.2 || A .c10A .physBio s.1 s.2)
      else if hasVar .c10A .chemistry s.1 s.2 then
        !(A gc .group2AP s.1 s.2) || A .c10A .chemistry s.1 s.2
      else if hasVar .c10A .physBio s.1 s.2 then
        !(A gc .group2AP s.1 s.2) || A .c10A .physBio s.1 s.2
      else true)))

/-- Family P, `add_art_group1_ap_conflict_constraint`: Art never coincides with
Group 1 AP (both involve Shiwen). -/
def satArtGroup1Conflict (A : Assignment) : Bool :=
  timeSlots.all (fun s =>
    [CName.c9A, .c9B, .c9C, .c10A, .c10B, .c10C, .c11A, .c11B].all (fun ac =>
      [CName.c11A, .c11B, .c12A, .c12B].all (fun gc =>
        !(hasVar ac .art s.1 s.2 && hasVar gc .group1AP s.1 s.2) ||
          !(A ac .art s.1 s.2 && A gc .group1AP s.1 s.2))))

/-- Family R, `add_9th_grade_daily_limits_constraint`, projected onto schedule
variables: for 9-A/B/C, Art has at most 2 periods a day and at most one day with
exactly 2, every other course at most 1 a day; each tracking-English class has at
most 2 a day and exactly one day with exactly 2 (the reified day indicators are
forced to equal the day-count tests). -/
def satNinthDaily (A : Assignment) : Bool :=
  ([CName.c9A, .c9B, .c9C].all (fun c =>
    ((List.range 5).all (fun d =>
      (dayVars c .art d).isEmpty || decide (dayCount A c .art d ≤ 2))) &&
    decide (((List.range 5).countP (fun d => dayCount A c .art d == 2)) ≤ 1) &&
    ([KName.algebra, .social, .psychology, .physics, .chemistry, .biology,
      .geography, .pe].all (fun k =>
      (List.range 5).all (fun d =>
        (dayVars c k d).isEmpty || decide (dayCount A c k d ≤ 1)))))) &&
  ([CName.c9EngA, .c9EngB, .c9EngC, .c9EngD, .c9EngE].all (fun c =>
    ((List.range 5).all (fun d =>
      (dayVars c .english d).isEmpty || decide (dayCount A c .english d ≤ 2))) &&
    (((List.range 5).all (fun d => (dayVars c .english d).isEmpty)) ||
      (((List.range 5).countP (fun d => dayCount A c .english d == 2)) == 1))))

/-- Family S, `add_10th_grade_daily_limits_constraint`, projected likewise:
Art at most 2 a day with at most one 2-period day, the listed other courses at
most 1 a day. -/
def satTenthDaily (A : Assignment) : Bool :=
  [CName.c10A, .c10B, .c10C].all (fun c =>
    ((List.range 5).all (fun d =>
      (dayVars c .art d).isEmpty || decide (dayCount A c .art d ≤ 2))) &&
    decide (((List.range 5).countP (fun d => dayCount A c .art d == 2)) ≤ 1) &&
    ([KName.english, .worldHistory, .psychGeo, .spanish, .preCal, .microEcon,
      .chemistry, .physBio, .pe].all (fun k =>
      (List.range 5).all (fun d =>
        (dayVars c k d).isEmpty || decide (dayCount A c k d ≤ 1)))))

/-- Check of every ordered pair (earlier, later) of a list, as the nested
`for i / for j in range(i+1, ...)` loops of the source. -/
def allPairsOk (f : Nat → Nat → Bool) : List Nat → Bool
  | [] => true
  | x :: xs => xs.all (f x) && allPairsOk f xs

/-- Period list the same-day-consecutive constraint collects: every period of
the day whose variable exists (no excluded-slot check in the source; excluded
slots have no variable anyway). -/
def wDayList (c : CName) (k : KName) (d : Nat) : List Nat :=
  (List.range (dayPeriodsMax d)).filterMap (fun i =>
    if hasVar c k d (i + 1) then some (i + 1) else none)

/-- Family W, `add_same_day_consecutive_constraint`: every non-adjacent pair of
same-day variables of one class/course is forbidden from being both 1. -/
def satSameDayAdjacent (A : Assignment) : Bool :=
  classGroups.all (fun g => g.courses.all (fun co => (List.range 5).all (fun d =>
    allPairsOk
      (fun pi pj => (pj == pi + 1) || !(A g.cname co.name d pi && A g.cname co.name d pj))
      (wDayList g.cname co.name d))))

/-- Family T, `add_tracking_english_abc_admin_constraint`: scheduled 9-Eng-A
English excludes every course of admin classes 9-A and 9-B at the slot. -/
def satTrackingABCAdmin (A : Assignment) : Bool :=
  timeSlots.all (fun s =>
    (excludedTimeSlots .c9EngA).contains s ||
    !(hasVar .c9EngA .english s.1 s.2) ||
    ([CName.c9A, .c9B].all (fun ac => (coursesOf ac).all (fun co =>
      !(hasVar ac co.name s.1 s.2) ||
        !(A .c9EngA .english s.1 s.2 && A ac co.name s.1 s.2)))))

/-- Family U, `add_tracking_english_de_admin_constraint`: scheduled 9-Eng-D
English excludes every course of admin class 9-C at the slot. -/
def satTrackingDEAdmin (A : Assignment) : Bool :=
  timeSlots.all (fun s =>
    (excludedTimeSlots .c9EngD).contains s ||
    !(hasVar .c9EngD .english s.1 s.2) ||
    ((coursesOf .c9C).all (fun co =>
      !(hasVar .c9C co.name s.1 s.2) ||
        !(A .c9EngD .english s.1 s.2 && A .c9C co.name s.1 s.2))))

/-- Family V, `add_tracking_english_abc_de_conflict_constraint`: the A/B/C and
D/E tracking-English groups never meet at the same slot. -/
def satTrackingABCDEConflict (A : Assignment) : Bool :=
  timeSlots.all (fun s =>
    (excludedTimeSlots .c9EngA).contains s ||
    (excludedTimeSlots .c9EngD).contains s ||
    !(hasVar .c9EngA .english s.1 s.2 && hasVar .c9EngD .english s.1 s.2) ||
    !(A .c9EngA .english s.1 s.2 && A .c9EngD .english s.1 s.2))

/-- Conjunction of every hard-constraint family `add_all_constraints` emits
(soft objective terms carry no hard requirement and are omitted). -/
def satisfiesHard (A : Assignment) : Bool :=
  satBasicLoad A && satSlotExclusive A && satJoint A && satTeacher A &&
  satRequired A && satE3 A && satE4 A && satDaily A &&
  satAPSemEnglishSync A && satLucyConflict A && satGuoConflict A &&
  satDarinConflict A && satEnglishSync910 A && satEnglishLitConflict A &&
  satEnglishSemConflict A && satGroup2Requirement A && satArtGroup1Conflict A &&
  satNinthDaily A && satTenthDaily A && satSameDayAdjacent A &&
  satTrackingABCAdmin A && satTrackingDEAdmin A && satTrackingABCDEConflict A

end ClassSched

namespace ClassSched

/-- Slot-set membership helper for concrete assignments. -/
def slotIn (l : List (Nat × Nat)) (d p : Nat) : Bool := l.contains (d, p)

/-- A concrete full schedule (found by search, checked below against every
compiled hard-constraint family). -/
def sigmaStar : Assignment := fun c k d p =>
  match c, k with
  | .c9A, .algebra => slotIn [(0, 3), (1, 1), (2, 1), (3, 2), (4, 1)] d p
  | .c9A, .art => slotIn [(3, 3), (4, 4)] d p
  | .c9A, .biology => slotIn [(1, 5), (2, 6), (4, 6)] d p
  | .c9A, .chemistry => slotIn [(1, 4), (2, 5), (4, 5)] d p
  | .c9A, .geography => slotIn [(2, 8), (4, 7)] d p
  | .c9A, .pe => slotIn [(2, 7), (4, 2)] d p
  | .c9A, .physics => slotIn [(0, 6), (2, 4), (3, 6)] d p
  | .c9A, .psychology => slotIn [(0, 4), (1, 6), (3, 4)] d p
  | .c9A, .social => slotIn [(0, 5), (1, 2), (2, 2), (3, 5)] d p
  | .c9B, .algebra => slotIn [(0, 4), (1, 2), (2, 2), (3, 3), (4, 4)] d p
  | .c9B, .art => slotIn [(3, 2), (4, 2)] d p
  | .c9B, .biology => slotIn [(0, 6), (1, 6), (2, 7)] d p
  | .c9B, .chemistry => slotIn [(1, 5), (2, 8), (4, 7)] d p
  | .c9B, .geography => slotIn [(2, 6), (4, 6)] d p
  | .c9B, .pe => slotIn [(3, 4), (4, 1)] d p
  | .c9B, .physics => slotIn [(1, 4), (2, 5), (4, 5)] d p
  | .c9B, .psychology => slotIn [(0, 5), (2, 4), (3, 5)] d p
  | .c9B, .social => slotIn [(0, 3), (1, 1), (2, 1), (3, 6)] d p
  | .c9C, .algebra => slotIn [(0, 1), (1, 3), (2, 3), (3, 1), (4, 2)] d p
  | .c9C, .art => slotIn [(2, 5), (4, 3)] d p
  | .c9C, .biology => slotIn [(1, 4), (2, 2), (4, 7)] d p
  | .c9C, .chemistry => slotIn [(0, 4), (1, 1), (4, 1)] d p
  | .c9C, .geography => slotIn [(2, 4), (4, 4)] d p
  | .c9C, .pe => slotIn [(2, 1), (3, 3)] d p
  | .c9C, .physics => slotIn [(0, 3), (3, 4), (4, 6)] d p
  | .c9C, .psychology => slotIn [(0, 6), (1, 2), (3, 6)] d p
  | .c9C, .social => slotIn [(0, 2), (1, 6), (2, 6), (3, 2)] d p
  | .c9EngA, .english => slotIn [(0, 1), (0, 2), (1, 3), (2, 3), (3, 1), (4, 3)] d p
  | .c9EngB, .english => slotIn [(0, 1), (0, 2), (1, 3), (2, 3), (3, 1), (4, 3)] d p
  | .c9EngC, .english => slotIn [(0, 1), (0, 2), (1, 3), (2, 3), (3, 1), (4, 3)] d p
  | .c9EngD, .english => slotIn [(0, 5), (1, 5), (2, 7), (2, 8), (3, 5), (4, 5)] d p
  | .c9EngE, .english => slotIn [(0, 5), (1, 5), (2, 7), (2, 8), (3, 5), (4, 5)] d p
  | .c10A, .art => slotIn [(2, 7), (3, 6)] d p
  | .c10A, .chemistry => slotIn [(0, 2), (2, 2), (4, 2)] d p
  | .c10A, .english => slotIn [(0, 1), (1, 3), (2, 3), (3, 1), (4, 3)] d p
  | .c10A, .microEcon => slotIn [(0, 5), (1, 5), (2, 5), (3, 5), (4, 6)] d p
  | .c10A, .pe => slotIn [(2, 8), (4, 7)] d p
  | .c10A, .physBio => slotIn [(0, 3), (1, 2), (3, 2)] d p
  | .c10A, .preCal => slotIn [(0, 4), (1, 4), (2, 4), (3, 4), (4, 5)] d p
  | .c10A, .psychGeo => slotIn [(1, 1), (2, 1), (4, 1)] d p
  | .c10A, .spanish => slotIn [(3, 3), (4, 4)] d p
  | .c10A, .worldHistory => slotIn [(0, 6), (1, 6), (2, 6)] d p
  | .c10B, .art => slotIn [(3, 4), (4, 5)] d p
  | .c10B, .chemistry => slotIn [(0, 5), (2, 7), (3, 6)] d p
  | .c10B, .english => slotIn [(0, 3), (1, 2), (2, 5), (3, 2), (4, 6)] d p
  | .c10B, .microEcon => slotIn [(0, 1), (1, 3), (2, 3), (3, 3), (4, 7)] d p
  | .c10B, .pe => slotIn [(3, 5), (4, 4)] d p
  | .c10B, .physBio => slotIn [(0, 6), (1, 6), (2, 6)] d p
  | .c10B, .preCal => slotIn [(0, 2), (1, 5), (2, 2), (3, 1), (4, 3)] d p
  | .c10B, .psychGeo => slotIn [(1, 1), (2, 1), (4, 1)] d p
  | .c10B, .spanish => slotIn [(2, 4), (4, 2)] d p
  | .c10B, .worldHistory => slotIn [(0, 4), (1, 4), (2, 8)] d p
  | .c10C, .art => slotIn [(2, 8), (4, 7)] d p
  | .c10C, .chemistry => slotIn [(0, 6), (1, 6), (2, 6)] d p
  | .c10C, .english => slotIn [(0, 2), (1, 5), (2, 2), (3, 3), (4, 2)] d p
  | .c10C, .microEcon => slotIn [(0, 4), (1, 4), (2, 4), (3, 4), (4, 5)] d p
  | .c10C, .pe => slotIn [(2, 5), (4, 6)] d p
  | .c10C, .physBio => slotIn [(0, 3), (1, 2), (3, 2)] d p
  | .c10C, .preCal => slotIn [(0, 1), (1, 3), (2, 3), (3, 5), (4, 4)] d p
  | .c10C, .psychGeo => slotIn [(1, 1), (2, 1), (4, 1)] d p
  | .c10C, .spanish => slotIn [(3, 1), (4, 3)] d p
  | .c10C, .worldHistory => slotIn [(0, 5), (2, 7), (3, 6)] d p
  | .cEALA, .eal => slotIn [(1, 1), (2, 1), (4, 1)] d p
  | .cEALB, .eal => slotIn [(1, 1), (2, 1), (4, 1)] d p
  | .cEALC, .eal => slotIn [(0, 3), (1, 1), (1, 2), (2, 1), (3, 2), (4, 1)] d p
  | .c11A, .art => slotIn [(1, 6), (2, 6)] d p
  | .c11A, .calABBC => slotIn [(1, 7), (1, 8), (2, 7), (2, 8), (4, 7)] d p
  | .c11A, .english => slotIn [(0, 4), (1, 4), (2, 4), (3, 4), (4, 4)] d p
  | .c11A, .group1AP => slotIn [(0, 1), (1, 1), (2, 1), (3, 1), (4, 1)] d p
  | .c11A, .group2AP => slotIn [(0, 2), (1, 2), (2, 2), (3, 2), (4, 2)] d p
  | .c11A, .group3AP => slotIn [(0, 3), (1, 3), (2, 3), (3, 3), (4, 3)] d p
  | .c11A, .literature => slotIn [(1, 5), (3, 5), (4, 6)] d p
  | .c11A, .pe => slotIn [(0, 6), (3, 6)] d p
  | .c11A, .spanish => slotIn [(0, 5), (2, 5), (4, 5)] d p
  | .c11B, .art => slotIn [(0, 6), (4, 6)] d p
  | .c11B, .calABBC => slotIn [(0, 4), (1, 4), (2, 4), (3, 4), (4, 4)] d p
  | .c11B, .english => slotIn [(1, 7), (1, 8), (2, 7), (2, 8), (4, 7)] d p
  | .c11B, .group1AP => slotIn [(0, 1), (1, 1), (2, 1), (3, 1), (4, 1)] d p
  | .c11B, .group2AP => slotIn [(0, 2), (1, 2), (2, 2), (3, 2), (4, 2)] d p
  | .c11B, .group3AP => slotIn [(0, 3), (1, 3), (2, 3), (3, 3), (4, 3)] d p
  | .c11B, .literature => slotIn [(0, 5), (2, 5), (3, 6)] d p
  | .c11B, .pe => slotIn [(1, 6), (4, 5)] d p
  | .c11B, .spanish => slotIn [(1, 5), (2, 6), (3, 5)] d p
  | .c12A, .apSeminar => slotIn [(0, 4), (1, 4), (2, 4), (3, 4), (4, 4)] d p
  | .c12A, .bcStats => slotIn [(0, 5), (1, 5), (2, 5), (3, 5), (4, 5)] d p
  | .c12A, .counseling => slotIn [(1, 8)] d p
  | .c12A, .group1AP => slotIn [(0, 1), (1, 1), (2, 1), (3, 1), (4, 1)] d p
  | .c12A, .group2AP => slotIn [(0, 2), (1, 2), (2, 2), (3, 2), (4, 2)] d p
  | .c12A, .group3AP => slotIn [(0, 3), (1, 3), (2, 3), (3, 3), (4, 3)] d p
  | .c12A, .pe => slotIn [(1, 7), (2, 6)] d p
  | .c12A, .spanish => slotIn [(0, 6), (1, 6), (2, 7)] d p
  | .c12B, .apSeminar => slotIn [(0, 4), (1, 4), (2, 4), (3, 4), (4, 4)] d p
  | .c12B, .bcStats => slotIn [(0, 5), (1, 5), (2, 5), (3, 5), (4, 5)] d p
  | .c12B, .counseling => slotIn [(1, 8)] d p
  | .c12B, .group1AP => slotIn [(0, 1), (1, 1), (2, 1), (3, 1), (4, 1)] d p
  | .c12B, .group2AP => slotIn [(0, 2), (1, 2), (2, 2), (3, 2), (4, 2)] d p
  | .c12B, .group3AP => slotIn [(0, 3), (1, 3), (2, 3), (3, 3), (4, 3)] d p
  | .c12B, .pe => slotIn [(1, 7), (2, 6)] d p
  | .c12B, .spanish => slotIn [(2, 8), (3, 6), (4, 6)] d p
  | _, _ => false

/-- The same schedule except that 12-B's unpinned PE period moves from Wed 6 to
Wed 7, where 9-A also has PE: teacher Wen then teaches two distinct session
units at once, yet (as proved below) every compiled hard constraint still
holds, because the teacher-conflict family only constrains the representative
member 12-A of the teacher-level joint session. -/
def sigmaClash : Assignment := fun c k d p =>
  match c, k with
  | .c12B, .pe => slotIn [(1, 7), (2, 7)] d p
  | _, _ => sigmaStar c k d p


end ClassSched

namespace ClassSched

/-- The explicit slot list agrees with the generating loops of
`data.get_time_slots()`. -/
theorem timeSlots_generated :
    timeSlots =
      (List.range 5).flatMap (fun d => (List.range (periodsPerDay d)).map (fun i => (d, i + 1))) := by
  decide

end ClassSched

namespace ClassSched

/-! ## Concrete evaluation facts and generic list lemmas -/

set_option maxHeartbeats 16000000 in
/-- The concrete schedule `sigmaStar` satisfies every compiled hard constraint. -/
theorem sigmaStar_hard : satisfiesHard sigmaStar = true := by decide

set_option maxHeartbeats 16000000 in
/-- The clash variant also satisfies every compiled hard constraint. -/
theorem sigmaClash_hard : satisfiesHard sigmaClash = true := by decide

/-- Splitting the hard-constraint conjunction into its families. -/
theorem hard_split {A : Assignment} (h : satisfiesHard A = true) :
    satBasicLoad A = true ∧ satSlotExclusive A = true ∧ satJoint A = true ∧
    satTeacher A = true ∧ satRequired A = true ∧ satE3 A = true ∧ satE4 A = true ∧
    satDaily A = true ∧ satAPSemEnglishSync A = true ∧ satLucyConflict A = true ∧
    satGuoConflict A = true ∧ satDarinConflict A = true ∧ satEnglishSync910 A = true ∧
    satEnglishLitConflict A = true ∧ satEnglishSemConflict A = true ∧
    satGroup2Requirement A = true ∧ satArtGroup1Conflict A = true ∧
    satNinthDaily A = true ∧ satTenthDaily A = true ∧ satSameDayAdjacent A = true ∧
    satTrackingABCAdmin A = true ∧ satTrackingDEAdmin A = true ∧
    satTrackingABCDEConflict A = true := by
  simp only [satisfiesHard, Bool.and_eq_true] at h
  simp only [and_assoc] at h
  exact h

/-- Elements of an `all`-true list satisfy the predicate. -/
theorem all_mem {α : Type} {l : List α} {p : α → Bool} (h : l.all p = true) {x : α}
    (hx : x ∈ l) : p x = true :=
  List.all_eq_true.mp h x hx

/-- Splitting a count along a second predicate. -/
theorem countP_and_split {α : Type} (l : List α) (p q : α → Bool) :
    l.countP p = l.countP (fun a => p a && q a) + l.countP (fun a => p a && !(q a)) := by
  induction l with
  | nil => simp
  | cons x xs ih =>
    simp only [List.countP_cons]
    cases hp : p x <;> cases hq : q x <;> simp [hp, hq, ih] <;> omega

/-- A count bounded by 1 identifies the satisfying elements. -/
theorem mem_eq_of_countP_le_one {α : Type} {l : List α} {f : α → Bool}
    (h : l.countP f ≤ 1) {a b : α} (ha : a ∈ l) (hb : b ∈ l)
    (fa : f a = true) (fb : f b = true) : a = b := by
  induction l with
  | nil => cases ha
  | cons x xs ih =>
    rw [List.countP_cons] at h
    rcases List.mem_cons.mp ha with h1 | ha2
    · subst h1
      rcases List.mem_cons.mp hb with h2 | hb2
      · exact h2.symm
      · exfalso
        rw [fa, if_pos rfl] at h
        have h0 : xs.countP f = 0 := by omega
        exact (List.countP_eq_zero.mp h0 _ hb2) fb
    · rcases List.mem_cons.mp hb with h2 | hb2
      · subst h2
        exfalso
        rw [fb, if_pos rfl] at h
        have h0 : xs.countP f = 0 := by omega
        exact (List.countP_eq_zero.mp h0 _ ha2) fa
      · refine ih ?_ ha2 hb2
        have hle : xs.countP f ≤ xs.countP f + (if f x = true then 1 else 0) := Nat.le_add_right _ _
        omega

/-- Members of distinct positions of an `allPairsOk`-true list are related one
way or the other. -/
theorem allPairs_mem {f : Nat → Nat → Bool} {l : List Nat}
    (h : allPairsOk f l = true) {a b : Nat} (ha : a ∈ l) (hb : b ∈ l) (hne : a ≠ b) :
    f a b = true ∨ f b a = true := by
  induction l with
  | nil => cases ha
  | cons x xs ih =>
    simp only [allPairsOk, Bool.and_eq_true] at h
    rcases List.mem_cons.mp ha with rfl | ha2
    · rcases List.mem_cons.mp hb with rfl | hb2
      · exact absurd rfl hne
      · exact Or.inl (all_mem h.1 hb2)
    · rcases List.mem_cons.mp hb with rfl | hb2
      · exact Or.inr (all_mem h.1 ha2)
      · exact ih h.2 ha2 hb2

end ClassSched

namespace ClassSched

/-! ## Catalog plumbing facts -/

/-- Looking a class up in the catalog returns its course list. -/
theorem coursesOf_classGroups : ∀ g ∈ classGroups, coursesOf g.cname = g.courses := by
  decide

/-- Every class name names a catalog class. -/
theorem exists_classGroup : ∀ c : CName, ∃ g ∈ classGroups, g.cname = c := by
  decide

/-- `ppwOf` reads off the catalog's weekly period requirement. -/
theorem ppwOf_courses :
    ∀ g ∈ classGroups, ∀ co ∈ g.courses, ppwOf g.cname co.name = co.periods_per_week := by
  decide

/-- A variable's existence implies its slot is a real slot of the week. -/
theorem hasVar_mem_timeSlots {c : CName} {k : KName} {d p : Nat}
    (h : hasVar c k d p = true) : (d, p) ∈ timeSlots := by
  simp only [hasVar, Bool.and_eq_true] at h
  exact List.elem_iff.mp h.1.1.2

/-- A variable's existence implies its slot is not excluded for the class. -/
theorem hasVar_not_excluded {c : CName} {k : KName} {d p : Nat}
    (h : hasVar c k d p = true) : (excludedTimeSlots c).contains (d, p) = false := by
  simp only [hasVar, Bool.and_eq_true] at h
  have := h.1.2
  simp only [Bool.not_eq_true'] at this
  exact this

/-- A variable's existence implies the class offers the course. -/
theorem hasVar_hasCourse {c : CName} {k : KName} {d p : Nat}
    (h : hasVar c k d p = true) : hasCourse c k = true := by
  simp only [hasVar, Bool.and_eq_true] at h
  exact h.1.1.1

/-- A variable's existence implies the required-slot check passes. -/
theorem hasVar_requiredOk {c : CName} {k : KName} {d p : Nat}
    (h : hasVar c k d p = true) : requiredOk c k d p = true := by
  simp only [hasVar, Bool.and_eq_true] at h
  exact h.2

/-- The variable space `_create_variables` builds, characterised: a key is
created exactly when the class offers the course, the slot is a slot of the
week, the slot is not excluded for the class, and the slot is not reserved for
a different course. -/
theorem mem_createdVars_iff (c : CName) (k : KName) (d p : Nat) :
    (c, k, d, p) ∈ createdVars ↔ hasVar c k d p = true := by
  constructor
  · intro h
    simp only [createdVars, List.mem_flatMap, List.mem_filterMap] at h
    obtain ⟨g, hg, co, hco, s, hs, hif⟩ := h
    obtain ⟨s1, s2⟩ := s
    by_cases hcond :
        (!((excludedTimeSlots g.cname).contains (s1, s2)) &&
          requiredOk g.cname co.name s1 s2) = true
    · rw [if_pos hcond] at hif
      have heq := Option.some.inj hif
      simp only [Prod.mk.injEq] at heq
      obtain ⟨h1, h2, h3, h4⟩ := heq
      subst h1; subst h2; subst h3; subst h4
      simp only [Bool.and_eq_true, Bool.not_eq_true'] at hcond
      have hcourse : hasCourse g.cname co.name = true := by
        simp only [hasCourse]
        rw [coursesOf_classGroups g hg]
        exact List.any_eq_true.mpr ⟨co, hco, by simp⟩
      simp only [hasVar, Bool.and_eq_true]
      refine ⟨⟨⟨hcourse, List.elem_iff.mpr hs⟩, ?_⟩, hcond.2⟩
      rw [hcond.1]
      rfl
    · rw [if_neg hcond] at hif
      cases hif
  · intro h
    obtain ⟨g, hg, hgc⟩ := exists_classGroup c
    have hcc : coursesOf c = g.courses := by rw [← hgc]; exact coursesOf_classGroups g hg
    have hcourse := hasVar_hasCourse h
    simp only [hasCourse, hcc] at hcourse
    obtain ⟨co, hco, hname⟩ := List.any_eq_true.mp hcourse
    simp only [beq_iff_eq] at hname
    simp only [createdVars, List.mem_flatMap, List.mem_filterMap]
    refine ⟨g, hg, co, hco, (d, p), hasVar_mem_timeSlots h, ?_⟩
    rw [hgc, hname]
    have hcond2 : (!((excludedTimeSlots c).contains (d, p)) && requiredOk c k d p) = true := by
      rw [hasVar_not_excluded h]
      simp [hasVar_requiredOk h]
    rw [if_pos hcond2]

end ClassSched

namespace ClassSched

/-! ## Flat solution extraction (`get_solution`) and validator counts -/

/-- The type of the flat class-slot dictionary, projected to course names. -/
abbrev SolMap : Type := CName → Nat → Nat → Option KName

/-- One cell of the flat dictionary `get_solution` builds: iterating the
schedule variables of the class in creation order, every scheduled course
overwrites the cell keyed (class, day, period), so the cell holds the last
scheduled course in catalog order. -/
def flatSol (A : Assignment) : SolMap := fun c d p =>
  (coursesOf c).foldl
    (fun acc co => if scheduled A c co.name d p then some co.name else acc) none

/-- Check 1 of `validate_solution` recomputes this count from the flat
dictionary: slots of the week whose cell holds the course. -/
def validatorCount (sol : SolMap) (c : CName) (k : KName) : Nat :=
  timeSlots.countP (fun s => sol c s.1 s.2 == some k)

/-- The (class, course) pairs check 1 of `validate_solution` reports as
defective: recomputed count differs from `periods_per_week` (the source
formats each such pair as an error string). -/
def check1Mismatches (sol : SolMap) : List (CName × KName) :=
  catalogPairs.filter (fun pr => !(validatorCount sol pr.1 pr.2 == ppwOf pr.1 pr.2))

/-- Boolean-valued congruence for counts. -/
theorem countP_congrB {α : Type} {l : List α} {p q : α → Bool}
    (h : ∀ a ∈ l, p a = q a) : l.countP p = l.countP q :=
  List.countP_congr (fun x hx => by rw [h x hx])

/-- A left fold with overwriting picks the last accepted element. -/
theorem foldl_overwrite (f : Course → Bool) (l : List Course) (a : Option KName) :
    l.foldl (fun acc co => if f co then some co.name else acc) a =
      (match l.reverse.find? f with
       | some co => some co.name
       | none => a) := by
  induction l generalizing a with
  | nil => simp
  | cons x xs ih =>
    simp only [List.foldl_cons, List.reverse_cons, List.find?_append, ih]
    cases hfind : xs.reverse.find? f with
    | some co => simp
    | none => cases hfx : f x <;> simp [hfx]

/-- Each slot of a class holds at most one scheduled course, as enforced by
family A2 (slots outside the week or excluded hold none). -/
theorem slotCount_le_one (A : Assignment) (hX : satSlotExclusive A = true)
    (c : CName) (d p : Nat) :
    (coursesOf c).countP (fun co => scheduled A c co.name d p) ≤ 1 := by
  by_cases hmem : (d, p) ∈ timeSlots
  · obtain ⟨g, hg, hgc⟩ := exists_classGroup c
    have hcc : coursesOf c = g.courses := by rw [← hgc]; exact coursesOf_classGroups g hg
    have hinner := all_mem (all_mem hX hg) hmem
    dsimp only at hinner
    rw [Bool.or_eq_true, Bool.or_eq_true] at hinner
    have hconv :
        g.courses.countP (fun co => scheduled A g.cname co.name d p) =
          (g.courses.filter (fun co => hasVar g.cname co.name d p)).countP
            (fun co => A g.cname co.name d p) := by
      rw [List.countP_filter]
      refine countP_congrB (fun co _ => ?_)
      simp [scheduled, Bool.and_comm]
    rw [hcc, hgc] at *
    rcases hinner with hexcl | hlen | hcnt
    · have hzero : ∀ co ∈ g.courses, scheduled A c co.name d p = false := by
        intro co _
        cases hsch : scheduled A c co.name d p
        · rfl
        · exfalso
          have hv : hasVar c co.name d p = true := by
            simp only [scheduled, Bool.and_eq_true] at hsch
            exact hsch.1
          rw [hasVar_not_excluded hv] at hexcl
          cases hexcl
      have : g.courses.countP (fun co => scheduled A c co.name d p) = 0 :=
        List.countP_eq_zero.mpr (by intro a ha; simp [hzero a ha])
      omega
    · have hle := List.countP_le_length
        (l := g.courses.filter (fun co => hasVar c co.name d p))
        (fun co => A c co.name d p)
      have hlen2 := of_decide_eq_true hlen
      rw [hconv]
      omega
    · have := of_decide_eq_true hcnt
      rw [hconv]
      omega
  · have hzero : ∀ co ∈ coursesOf c, scheduled A c co.name d p = false := by
      intro co _
      cases hsch : scheduled A c co.name d p
      · rfl
      · exfalso
        have hv : hasVar c co.name d p = true := by
          simp only [scheduled, Bool.and_eq_true] at hsch
          exact hsch.1
        exact hmem (hasVar_mem_timeSlots hv)
    have : (coursesOf c).countP (fun co => scheduled A c co.name d p) = 0 :=
      List.countP_eq_zero.mpr (by intro a ha; simp [hzero a ha])
    omega

end ClassSched

namespace ClassSched

set_option maxRecDepth 8000 in
set_option maxHeartbeats 1600000 in
/-- Every catalog (class, course) pair has at least one schedule variable, so
family A1 really emits its load equality for every pair. -/
theorem varSlots_nonempty : ∀ pr ∈ catalogPairs, (varSlots pr.1 pr.2).isEmpty = false := by
  decide

/-- Under slot exclusivity, a cell of the flat dictionary holds a course
exactly when the class is scheduled for that course at the slot. -/
theorem flatSol_eq_scheduled (A : Assignment) (hX : satSlotExclusive A = true)
    (c : CName) (k : KName) (d p : Nat) :
    flatSol A c d p = some k ↔ scheduled A c k d p = true := by
  have hcnt := slotCount_le_one A hX c d p
  rw [flatSol, foldl_overwrite]
  constructor
  · intro h
    cases hfind : (coursesOf c).reverse.find? (fun co => scheduled A c co.name d p) with
    | none => rw [hfind] at h; cases h
    | some co =>
      rw [hfind] at h
      have hco := Option.some.inj h
      have hp := List.find?_some hfind
      rw [hco] at hp
      exact hp
  · intro h
    have hcourse : hasCourse c k = true := by
      simp only [scheduled, Bool.and_eq_true] at h
      exact hasVar_hasCourse h.1
    simp only [hasCourse] at hcourse
    obtain ⟨co, hcomem, hconame⟩ := List.any_eq_true.mp hcourse
    simp only [beq_iff_eq] at hconame
    have hfco : scheduled A c co.name d p = true := by rw [hconame]; exact h
    have hsome : ((coursesOf c).reverse.find? (fun co => scheduled A c co.name d p)).isSome := by
      rw [List.find?_isSome]
      exact ⟨co, List.mem_reverse.mpr hcomem, hfco⟩
    obtain ⟨co2, hfind⟩ := Option.isSome_iff_exists.mp hsome
    rw [hfind]
    have hp2 := List.find?_some hfind
    have hmem2 := List.mem_of_find?_eq_some hfind
    have hco2 : co2 = co :=
      mem_eq_of_countP_le_one hcnt (List.mem_reverse.mp hmem2) hcomem hp2 hfco
    rw [hco2]
    show some co.name = some k
    rw [hconame]

/-- The count check 1 of the validator recomputes from the flat dictionary
equals the number of variables set for the pair, given slot exclusivity. -/
theorem validatorCount_eq_weeklyCount (A : Assignment) (hX : satSlotExclusive A = true)
    (c : CName) (k : KName) :
    validatorCount (flatSol A) c k = weeklyCount A c k := by
  refine countP_congrB (fun s _ => ?_)
  have hiff := flatSol_eq_scheduled A hX c k s.1 s.2
  by_cases hfs : flatSol A c s.1 s.2 = some k
  · rw [hiff.mp hfs, hfs]
    simp
  · have hsch : scheduled A c k s.1 s.2 = false := by
      cases hsch2 : scheduled A c k s.1 s.2
      · rfl
      · exact absurd (hiff.mpr hsch2) hfs
    rw [hsch]
    exact beq_eq_false_iff_ne.mpr hfs

/-- Family A1 pins the weekly count of every catalog pair to its
`periods_per_week`. -/
theorem weeklyCount_eq_ppw (A : Assignment) (hL : satBasicLoad A = true)
    {c : CName} {k : KName} (hck : (c, k) ∈ catalogPairs) :
    weeklyCount A c k = ppwOf c k := by
  simp only [catalogPairs, List.mem_flatMap, List.mem_map] at hck
  obtain ⟨g, hg, co, hco, heq⟩ := hck
  simp only [Prod.mk.injEq] at heq
  obtain ⟨h1, h2⟩ := heq
  subst h1; subst h2
  have hinner := all_mem (all_mem hL hg) hco
  rw [Bool.or_eq_true] at hinner
  have hmempr : (g.cname, co.name) ∈ catalogPairs := by
    simp only [catalogPairs, List.mem_flatMap, List.mem_map]
    exact ⟨g, hg, co, hco, rfl⟩
  rcases hinner with hemp | hcount
  · rw [varSlots_nonempty _ hmempr] at hemp
    cases hemp
  · have hc : (varSlots g.cname co.name).countP (fun s => A g.cname co.name s.1 s.2)
        = co.periods_per_week := by
      exact beq_iff_eq.mp hcount
    have e1 : (varSlots g.cname co.name).countP (fun s => A g.cname co.name s.1 s.2)
        = (varSlots g.cname co.name).countP
            (fun s => scheduled A g.cname co.name s.1 s.2) := by
      refine countP_congrB (fun s hs => ?_)
      have hv : hasVar g.cname co.name s.1 s.2 = true := by
        simp only [varSlots, List.mem_filter, Bool.and_eq_true] at hs
        exact hs.2.2
      simp [scheduled, hv]
    have e2 : weeklyCount A g.cname co.name
        = (varSlots g.cname co.name).countP
            (fun s => scheduled A g.cname co.name s.1 s.2) := by
      rw [weeklyCount, varSlots, List.countP_filter]
      refine countP_congrB (fun s _ => ?_)
      cases hsch : scheduled A g.cname co.name s.1 s.2
      · simp
      · have hv : hasVar g.cname co.name s.1 s.2 = true := by
          simp only [scheduled, Bool.and_eq_true] at hsch
          exact hsch.1
        rw [hasVar_not_excluded hv]
        simp [hv]
    rw [e2, ← e1, hc, ppwOf_courses g hg co hco]

end ClassSched

namespace ClassSched

/-- C1: in every assignment accepted as feasible by the compiled model
(families A1 and A2 of `add_basic_constraints`), every class takes each of its
catalog courses at exactly `periods_per_week` slots; check 1 of
`validate_solution` recomputes exactly this count from the flat solution and
reports a defect precisely when the recomputed count differs from
`periods_per_week`. -/
theorem claim_C1 (A : Assignment) (hL : satBasicLoad A = true)
    (hX : satSlotExclusive A = true) :
    (∀ c k, (c, k) ∈ catalogPairs →
      weeklyCount A c k = ppwOf c k ∧
      validatorCount (flatSol A) c k = weeklyCount A c k ∧
      (c, k) ∉ check1Mismatches (flatSol A)) ∧
    (∀ sol : SolMap, ∀ c k, (c, k) ∈ catalogPairs →
      ((c, k) ∈ check1Mismatches sol ↔ validatorCount sol c k ≠ ppwOf c k)) := by
  constructor
  · intro c k hck
    have h1 := weeklyCount_eq_ppw A hL hck
    have h2 := validatorCount_eq_weeklyCount A hX c k
    refine ⟨h1, h2, ?_⟩
    simp only [check1Mismatches, List.mem_filter]
    rintro ⟨-, hbad⟩
    rw [h2, h1] at hbad
    simp at hbad
  · intro sol c k hck
    simp only [check1Mismatches, List.mem_filter]
    constructor
    · rintro ⟨-, hb⟩
      simpa using hb
    · intro hne
      exact ⟨hck, by simpa using hne⟩

/-- Witness for C1: the hypotheses hold at the concrete schedule and give the
expected count for 10-A English. -/
theorem claim_C1_witness :
    satBasicLoad sigmaStar = true ∧ satSlotExclusive sigmaStar = true ∧
    weeklyCount sigmaStar .c10A .english = 5 := by
  have hh := hard_split sigmaStar_hard
  have h := (claim_C1 sigmaStar hh.1 hh.2.1).1 .c10A .english (by decide)
  refine ⟨hh.1, hh.2.1, ?_⟩
  rw [h.1]
  rfl

/-- All-or-none synchrony for one joint session, derived from the load family
and the joint-sync family: at slots where the sync constraint was emitted the
members are pairwise equal, and at the remaining slots a counting argument over
the week forces every member with a variable to 0.  `m` is a member whose
variables all lie at constrained slots. -/
theorem joint_allOrNone_aux (A : Assignment) (hL : satBasicLoad A = true)
    (hJ : satJoint A = true) (js : JointSession) (hjs : js ∈ jointSessions)
    (m : CName) (hm : m ∈ js.classes)
    (hmin : ∀ s ∈ timeSlots, hasVar m js.course_name s.1 s.2 = true → jointValid js s = true)
    (hpairs : ∀ c ∈ js.classes, (c, js.course_name) ∈ catalogPairs)
    (hppw : ∀ c ∈ js.classes, ppwOf c js.course_name = ppwOf m js.course_name) :
    ∀ s ∈ timeSlots,
      (∀ c ∈ js.classes, scheduled A c js.course_name s.1 s.2 = true) ∨
      (∀ c ∈ js.classes, scheduled A c js.course_name s.1 s.2 = false) := by
  set k := js.course_name with hk
  have hschedEq : ∀ s ∈ timeSlots, jointValid js s = true →
      ∀ c ∈ js.classes, ∀ c2 ∈ js.classes,
        scheduled A c k s.1 s.2 = scheduled A c2 k s.1 s.2 := by
    intro s hs hv c hc c2 hc2
    have hinner := all_mem (all_mem hJ hjs) hs
    rw [Bool.or_eq_true] at hinner
    rcases hinner with hbad | heq
    · rw [Bool.not_eq_true'] at hbad
      rw [hv] at hbad
      cases hbad
    · have hvc : hasVar c k s.1 s.2 = true := by
        have := all_mem hv hc
        rw [Bool.and_eq_true] at this
        exact this.2
      have hvc2 : hasVar c2 k s.1 s.2 = true := by
        have := all_mem hv hc2
        rw [Bool.and_eq_true] at this
        exact this.2
      cases hll : js.classes with
      | nil =>
        rw [hll] at hc
        cases hc
      | cons c0 rest =>
        rw [hll] at hc hc2 heq
        have hA : ∀ x ∈ c0 :: rest, A x k s.1 s.2 = A c0 k s.1 s.2 := by
          intro x hx
          rcases List.mem_cons.mp hx with rfl | hxr
          · rfl
          · exact beq_iff_eq.mp (all_mem heq hxr)
        simp [scheduled, hvc, hvc2, hA c hc, hA c2 hc2]
  have hcS : ∀ c ∈ js.classes,
      timeSlots.countP (fun s => scheduled A c k s.1 s.2 && jointValid js s) =
      timeSlots.countP (fun s => scheduled A m k s.1 s.2 && jointValid js s) := by
    intro c hc
    refine countP_congrB (fun s hs => ?_)
    cases hv : jointValid js s
    · simp
    · rw [hschedEq s hs hv c hc m hm]
  have hcOm : timeSlots.countP
      (fun s => scheduled A m k s.1 s.2 && !(jointValid js s)) = 0 := by
    refine List.countP_eq_zero.mpr (fun s hs => ?_)
    cases hsch : scheduled A m k s.1 s.2
    · simp
    · have hv : hasVar m k s.1 s.2 = true := by
        rw [scheduled, Bool.and_eq_true] at hsch
        exact hsch.1
      rw [hmin s hs hv]
      simp
  have hcO : ∀ c ∈ js.classes,
      timeSlots.countP (fun s => scheduled A c k s.1 s.2 && !(jointValid js s)) = 0 := by
    intro c hc
    have hwc := weeklyCount_eq_ppw A hL (hpairs c hc)
    have hwm := weeklyCount_eq_ppw A hL (hpairs m hm)
    have hsplitc := countP_and_split timeSlots
      (fun s => scheduled A c k s.1 s.2) (fun s => jointValid js s)
    have hsplitm := countP_and_split timeSlots
      (fun s => scheduled A m k s.1 s.2) (fun s => jointValid js s)
    rw [weeklyCount] at hwc hwm
    rw [hcS c hc] at hsplitc
    rw [hcOm] at hsplitm
    rw [hppw c hc] at hwc
    omega
  intro s hs
  by_cases hv : jointValid js s = true
  · cases hm0 : scheduled A m k s.1 s.2
    · right
      intro c hc
      rw [hschedEq s hs hv c hc m hm]
      exact hm0
    · left
      intro c hc
      rw [hschedEq s hs hv c hc m hm]
      exact hm0
  · right
    intro c hc
    have hz := List.countP_eq_zero.mp (hcO c hc) s hs
    cases hsch : scheduled A c k s.1 s.2
    · rfl
    · exfalso
      apply hz
      rw [hsch]
      cases hv2 : jointValid js s
      · rfl
      · exact absurd hv2 hv

/-- C2: in every assignment satisfying the load and joint-session families of
the compiled hard constraints, every joint session is all-or-none at every slot
of the week — including the slots where the members' excluded or required slots
differ (there the sync constraint is skipped, but the weekly load equalities
force the extra variables to 0). -/
theorem claim_C2 (A : Assignment) (hL : satBasicLoad A = true) (hJ : satJoint A = true) :
    ∀ js ∈ jointSessions, ∀ s ∈ timeSlots,
      (∀ c ∈ js.classes, scheduled A c js.course_name s.1 s.2 = true) ∨
      (∀ c ∈ js.classes, scheduled A c js.course_name s.1 s.2 = false) := by
  intro js hjs
  simp only [jointSessions, List.mem_cons, List.not_mem_nil, or_false] at hjs
  rcases hjs with rfl | rfl | rfl | rfl | rfl | rfl | rfl | rfl | rfl
  · exact joint_allOrNone_aux A hL hJ _ (by decide) .c9EngA (by decide) (by decide)
      (by decide) (by decide)
  · exact joint_allOrNone_aux A hL hJ _ (by decide) .c9EngD (by decide) (by decide)
      (by decide) (by decide)
  · exact joint_allOrNone_aux A hL hJ _ (by decide) .c10A (by decide) (by decide)
      (by decide) (by decide)
  · exact joint_allOrNone_aux A hL hJ _ (by decide) .c10A (by decide) (by decide)
      (by decide) (by decide)
  · exact joint_allOrNone_aux A hL hJ _ (by decide) .c12A (by decide) (by decide)
      (by decide) (by decide)
  · exact joint_allOrNone_aux A hL hJ _ (by decide) .c12A (by decide) (by decide)
      (by decide) (by decide)
  · exact joint_allOrNone_aux A hL hJ _ (by decide) .c12A (by decide) (by decide)
      (by decide) (by decide)
  · exact joint_allOrNone_aux A hL hJ _ (by decide) .c12A (by decide) (by decide)
      (by decide) (by decide)
  · exact joint_allOrNone_aux A hL hJ _ (by decide) .c12A (by decide) (by decide)
      (by decide) (by decide)

/-- Witness for C2: at the concrete schedule, the Psych&Geo joint session is
all-or-none at Tuesday period 1. -/
theorem claim_C2_witness :
    satBasicLoad sigmaStar = true ∧ satJoint sigmaStar = true ∧
    ((∀ c ∈ ([.c10A, .c10B, .c10C] : List CName), scheduled sigmaStar c .psychGeo 1 1 = true) ∨
     (∀ c ∈ ([.c10A, .c10B, .c10C] : List CName), scheduled sigmaStar c .psychGeo 1 1 = false)) := by
  have hh := hard_split sigmaStar_hard
  refine ⟨hh.1, hh.2.2.1, ?_⟩
  exact claim_C2 sigmaStar hh.1 hh.2.2.1
    ⟨[.c10A, .c10B, .c10C], .psychGeo,
      [[.chloe, .manuel], [.chloe, .manuel], [.chloe, .manuel]]⟩
    (by decide) (1, 1) (by decide)

end ClassSched

namespace ClassSched

/-- The semantic overlap count of E4: slots where 10-EAL-C takes EAL and 10-A
or 10-C takes Phys&Bio. -/
def overlapCount (A : Assignment) : Nat :=
  timeSlots.countP (fun s =>
    scheduled A .cEALC .eal s.1 s.2 &&
      (scheduled A .c10A .physBio s.1 s.2 || scheduled A .c10C .physBio s.1 s.2))

/-- Check 7 of `validate_solution` recounts the overlaps from the flat
dictionary. -/
def validatorOverlap (sol : SolMap) : Nat :=
  timeSlots.countP (fun s =>
    (sol .cEALC s.1 s.2 == some .eal) &&
      ((sol .c10A s.1 s.2 == some .physBio) || (sol .c10C s.1 s.2 == some .physBio)))

/-- Check 7 reports an E4 defect exactly when its recount differs from 3. -/
def e4Defect (sol : SolMap) : Bool :=
  validatorOverlap sol != 3

/-- Counting the booleans a filterMap produces equals counting the underlying
predicate, when dropped elements are exactly the false ones. -/
theorem countP_id_filterMap {α : Type} (l : List α) (f : α → Option Bool) (g : α → Bool)
    (h : ∀ a ∈ l, f a = some (g a) ∨ (f a = none ∧ g a = false)) :
    (l.filterMap f).countP id = l.countP g := by
  induction l with
  | nil => simp
  | cons x xs ih =>
    have hx := h x (List.mem_cons_self x xs)
    have hxs := ih (fun a ha => h a (List.mem_cons_of_mem x ha))
    rcases hx with hsome | ⟨hnone, hgx⟩
    · simp [List.filterMap_cons, hsome, List.countP_cons, hxs]
    · simp [List.filterMap_cons, hnone, List.countP_cons, hgx, hxs]

/-- Boolean form of `flatSol_eq_scheduled`. -/
theorem flatSol_beq (A : Assignment) (hX : satSlotExclusive A = true)
    (c : CName) (k : KName) (d p : Nat) :
    (flatSol A c d p == some k) = scheduled A c k d p := by
  have hiff := flatSol_eq_scheduled A hX c k d p
  by_cases hfs : flatSol A c d p = some k
  · rw [hiff.mp hfs, hfs]
    simp
  · have hsch : scheduled A c k d p = false := by
      cases hsch2 : scheduled A c k d p
      · rfl
      · exact absurd (hiff.mpr hsch2) hfs
    rw [hsch]
    exact beq_eq_false_iff_ne.mpr hfs

/-- The E4 term list projects pointwise to the semantic overlap predicate. -/
theorem e4Terms_pointwise (A : Assignment) :
    ∀ s ∈ timeSlots,
      e4Term A s =
          some (scheduled A .cEALC .eal s.1 s.2 &&
            (scheduled A .c10A .physBio s.1 s.2 || scheduled A .c10C .physBio s.1 s.2)) ∨
        (e4Term A s = none ∧
          (scheduled A .cEALC .eal s.1 s.2 &&
            (scheduled A .c10A .physBio s.1 s.2 || scheduled A .c10C .physBio s.1 s.2)) = false) := by
  intro s hs
  fin_cases hs <;> first
    | exact Or.inl rfl
    | exact Or.inr ⟨rfl, rfl⟩

/-- C4: every assignment satisfying the compiled E4 family (with A2 for the
validator's dictionary) has exactly 3 overlaps between 10-EAL-C's EAL slots and
the Phys&Bio slots of 10-A or 10-C — never 2, never 4.  The per-slot overlap
is the AND of the EAL variable with the OR of the two Phys&Bio variables, and
check 7 of the validator recounts exactly this number from the flat solution
and flags any recount other than 3. -/
theorem claim_C4 (A : Assignment) (h4 : satE4 A = true) (hX : satSlotExclusive A = true) :
    overlapCount A = 3 ∧ overlapCount A ≠ 2 ∧ overlapCount A ≠ 4 ∧
    validatorOverlap (flatSol A) = overlapCount A ∧
    e4Defect (flatSol A) = false ∧
    (∀ sol : SolMap, e4Defect sol = true ↔ validatorOverlap sol ≠ 3) := by
  have hne : (e4Terms A).isEmpty = false := rfl
  simp only [satE4, hne, Bool.false_or] at h4
  have h3 : (e4Terms A).countP id = 3 := beq_iff_eq.mp h4
  have hcnt : (e4Terms A).countP id = overlapCount A := by
    rw [e4Terms, overlapCount]
    exact countP_id_filterMap timeSlots (e4Term A) _ (e4Terms_pointwise A)
  have hover : overlapCount A = 3 := by omega
  have hval : validatorOverlap (flatSol A) = overlapCount A := by
    refine countP_congrB (fun s _ => ?_)
    rw [flatSol_beq A hX, flatSol_beq A hX, flatSol_beq A hX]
  refine ⟨hover, by omega, by omega, hval, ?_, ?_⟩
  · rw [e4Defect, hval, hover]
    rfl
  · intro sol
    rw [e4Defect]
    simp

/-- Witness for C4: the hypotheses hold at the concrete schedule, giving
exactly 3 overlaps. -/
theorem claim_C4_witness :
    satE4 sigmaStar = true ∧ overlapCount sigmaStar = 3 := by
  have hh := hard_split sigmaStar_hard
  exact ⟨hh.2.2.2.2.2.2.1,
    (claim_C4 sigmaStar hh.2.2.2.2.2.2.1 hh.2.1).1⟩

set_option maxRecDepth 8000 in
/-- Where an E3 implication's antecedent variable exists, its consequent
variable exists as well (the EAL companions share the 10th-grade exclusions). -/
theorem e3Pairs_var :
    ∀ pr ∈ e3Pairs, ∀ s ∈ timeSlots,
      hasVar pr.1 .psychGeo s.1 s.2 = true → hasVar pr.2 .eal s.1 s.2 = true := by
  decide

/-- C5: in every assignment satisfying the compiled E3 family, an
administrative class scheduled for Psych&Geo forces its companion EAL class
into EAL at the same slot; and the converse is not required — the concrete
schedule satisfies every compiled hard constraint yet has 10-EAL-C taking EAL
at Monday period 3 while 10-C has no Psych&Geo there. -/
theorem claim_C5 :
    (∀ A : Assignment, satE3 A = true → ∀ pr ∈ e3Pairs, ∀ s ∈ timeSlots,
      scheduled A pr.1 .psychGeo s.1 s.2 = true → scheduled A pr.2 .eal s.1 s.2 = true) ∧
    (satisfiesHard sigmaStar = true ∧
      scheduled sigmaStar .cEALC .eal 0 3 = true ∧
      scheduled sigmaStar .c10C .psychGeo 0 3 = false) := by
  constructor
  · intro A hE3 pr hpr s hs hP
    rw [scheduled, Bool.and_eq_true] at hP
    have hvE := e3Pairs_var pr hpr s hs hP.1
    have hinner := all_mem (all_mem hE3 hs) hpr
    rw [hP.1, hvE] at hinner
    simp only [Bool.and_self, Bool.not_true, Bool.false_or] at hinner
    rw [hP.2] at hinner
    simp only [Bool.not_true, Bool.false_or] at hinner
    rw [scheduled, hvE, hinner]
    rfl
  · exact ⟨sigmaStar_hard, rfl, rfl⟩

/-- Witness for C5's implication: at the concrete schedule, 10-A has Psych&Geo
at Tuesday period 1, so 10-EAL-A has EAL there. -/
theorem claim_C5_witness :
    satE3 sigmaStar = true ∧ scheduled sigmaStar .cEALA .eal 1 1 = true := by
  have hh := hard_split sigmaStar_hard
  refine ⟨hh.2.2.2.2.2.1, ?_⟩
  exact claim_C5.1 sigmaStar hh.2.2.2.2.2.1 (.c10A, .cEALA) (by decide) (1, 1)
    (by decide) rfl

end ClassSched

namespace ClassSched

/-- Characterisation of week slots by bounds. -/
theorem mem_timeSlots_iff (d p : Nat) :
    (d, p) ∈ timeSlots ↔ d < 5 ∧ 1 ≤ p ∧ p ≤ periodsPerDay d := by
  constructor
  · intro h
    fin_cases h <;> exact (by decide)
  · rintro ⟨h1, h2, h3⟩
    interval_cases d <;> simp only [periodsPerDay] at h3 <;> interval_cases p <;> decide

/-- A period whose variable exists appears in the same-day variable list. -/
theorem mem_wDayList {c : CName} {k : KName} {d p : Nat} (h : hasVar c k d p = true) :
    p ∈ wDayList c k d := by
  have hmem := hasVar_mem_timeSlots h
  rw [mem_timeSlots_iff] at hmem
  obtain ⟨hd, hp1, hp2⟩ := hmem
  have hdp : periodsPerDay d = dayPeriodsMax d := by
    interval_cases d <;> rfl
  simp only [wDayList, List.mem_filterMap]
  refine ⟨p - 1, List.mem_range.mpr (by omega), ?_⟩
  have hpe : p - 1 + 1 = p := by omega
  rw [hpe, h]
  simp

/-- Every offered course is a catalog course of a catalog class. -/
theorem hasCourse_exists :
    ∀ c k, hasCourse c k = true →
      ∃ g ∈ classGroups, ∃ co ∈ g.courses, g.cname = c ∧ co.name = k := by
  decide

/-- C6: in every assignment satisfying the compiled same-day-consecutive
family, two scheduled periods of one class/course on one day always differ by
exactly 1. -/
theorem claim_C6 (A : Assignment) (hW : satSameDayAdjacent A = true) :
    ∀ c k d p q, scheduled A c k d p = true → scheduled A c k d q = true → p ≠ q →
      (q = p + 1 ∨ p = q + 1) := by
  intro c k d p q hp hq hne
  rw [scheduled, Bool.and_eq_true] at hp hq
  obtain ⟨g, hg, co, hco, hgc, hcon⟩ := hasCourse_exists c k (hasVar_hasCourse hp.1)
  have hd : d < 5 := by
    have := hasVar_mem_timeSlots hp.1
    rw [mem_timeSlots_iff] at this
    exact this.1
  have hinner := all_mem (all_mem (all_mem hW hg) hco) (List.mem_range.mpr hd)
  rw [hgc, hcon] at hinner
  have hpair := allPairs_mem hinner (mem_wDayList hp.1) (mem_wDayList hq.1) hne
  rcases hpair with h1 | h2
  · rw [Bool.or_eq_true] at h1
    rcases h1 with he | hcontra
    · exact Or.inl (beq_iff_eq.mp he)
    · exfalso
      rw [hp.2, hq.2] at hcontra
      cases hcontra
  · rw [Bool.or_eq_true] at h2
    rcases h2 with he | hcontra
    · exact Or.inr (beq_iff_eq.mp he)
    · exfalso
      rw [hp.2, hq.2] at hcontra
      cases hcontra

/-- Witness for C6: 11-A has Cal-ABBC twice on Tuesday at the concrete
schedule, at periods 7 and 8, and the theorem confirms adjacency. -/
theorem claim_C6_witness :
    satSameDayAdjacent sigmaStar = true ∧ (8 = 7 + 1 ∨ 7 = 8 + 1) := by
  have hh := hard_split sigmaStar_hard
  have hW := hh.2.2.2.2.2.2.2.2.2.2.2.2.2.2.2.2.2.2.2.1
  exact ⟨hW, claim_C6 sigmaStar hW .c11A .calABBC 1 7 8 rfl rfl (by decide)⟩

end ClassSched

namespace ClassSched

/-- Classification of a (class, course) pair a teacher teaches into its
session unit: a formal joint session, a teacher-level joint session, or a
single class/course — the classification `add_teacher_conflict_constraints`
uses to deduplicate. -/
inductive UnitKey
  | joint (k : KName) (cs : List CName)
  | tjoint (k : KName) (cs : List CName)
  | single (c : CName) (k : KName)
deriving DecidableEq, Repr

/-- The session unit of a pair for a teacher. -/
def unitKeyOf (t : TName) (c : CName) (k : KName) : UnitKey :=
  match findJoint c k with
  | some js => .joint js.course_name js.classes
  | none =>
    match (teacherJointSessions t).find? (fun scl =>
        scl.contains c && scl.all (fun c2 => (teacherClasses t).contains (c2, k))) with
    | some scl => .tjoint k scl
    | none => .single c k

/-- The number of distinct session units a teacher actively teaches at a slot:
scheduled pairs of the teacher, with all member classes of one joint session
(formal or teacher-level) counted as a single unit. -/
def unitCount (A : Assignment) (t : TName) (d p : Nat) : Nat :=
  (((teacherClasses t).filter (fun pr => scheduled A pr.1 pr.2 d p)).map
    (fun pr => unitKeyOf t pr.1 pr.2)).dedup.length

/-- C3 evaluation: the clash schedule satisfies every compiled hard constraint,
yet teacher Wen teaches two distinct session units at Wednesday period 7 — the
12th-grade PE teacher-level joint unit (active through 12-B, whose variable the
teacher-conflict family never constrains because only the representative
member 12-A is summed) and the separate unit 9-A PE. -/
theorem claim_C3 :
    satisfiesHard sigmaClash = true ∧
    scheduled sigmaClash .c12B .pe 2 7 = true ∧
    scheduled sigmaClash .c9A .pe 2 7 = true ∧
    unitKeyOf .wen .c12B .pe ≠ unitKeyOf .wen .c9A .pe ∧
    unitCount sigmaClash .wen 2 7 = 2 := by
  exact ⟨sigmaClash_hard, rfl, rfl, by decide, by decide⟩

/-- C7: the variable-space builder creates the key (class, course, day,
period) exactly when the class offers the course, the slot is a slot of the
week, the slot is not excluded for the class, and the slot is not reserved
(via required slots) for a different course; in particular no variable exists
at an excluded slot, nor at a required slot pinned to another course. -/
theorem claim_C7 :
    ∀ c k d p,
      ((c, k, d, p) ∈ createdVars ↔ hasVar c k d p = true) ∧
      ((d, p) ∈ excludedTimeSlots c → (c, k, d, p) ∉ createdVars) ∧
      (∀ k2, ((d, p), k2) ∈ requiredTimeSlots c → k ≠ k2 → (c, k, d, p) ∉ createdVars) := by
  intro c k d p
  refine ⟨mem_createdVars_iff c k d p, ?_, ?_⟩
  · intro hex hmem
    have hv := (mem_createdVars_iff c k d p).mp hmem
    have hne := hasVar_not_excluded hv
    have h1 : (excludedTimeSlots c).contains (d, p) = true := List.elem_iff.mpr hex
    rw [h1] at hne
    exact Bool.noConfusion hne
  · intro k2 hreq hne hmem
    have hv := (mem_createdVars_iff c k d p).mp hmem
    have hro := hasVar_requiredOk hv
    cases c <;>
      simp only [requiredTimeSlots, List.mem_cons, List.not_mem_nil, or_false,
        Prod.mk.injEq] at hreq
    all_goals
      rcases hreq with ⟨⟨rfl, rfl⟩, rfl⟩ | ⟨⟨rfl, rfl⟩, rfl⟩ <;>
        exact hne (beq_iff_eq.mp hro).symm

/-- Witness for C7: 9-A's Tuesday period 7 is excluded, and indeed no Algebra
variable is created there. -/
theorem claim_C7_witness :
    (1, 7) ∈ excludedTimeSlots CName.c9A ∧
      (CName.c9A, KName.algebra, 1, 7) ∉ createdVars :=
  ⟨by decide, (claim_C7 .c9A .algebra 1 7).2.1 (by decide)⟩

/-- An abstract catalog for the feasibility pre-check (the repository loads
one fixed catalog from data.py; `check_feasibility` recomputes over whatever
that module provides). -/
structure CatalogData where
  classes : List (CName × List Course)
  excluded : CName → List (Nat × Nat)
  required : CName → List ((Nat × Nat) × KName)

/-- Mirrors the per-course available-slot count of `check_feasibility`. -/
def availableCount (cat : CatalogData) (c : CName) (k : KName) : Nat :=
  timeSlots.countP (fun s =>
    !((cat.excluded c).contains s) &&
      (match (cat.required c).lookup s with
       | some k2 => k2 == k
       | none => true))

/-- Mirrors `check_feasibility`: the (class, course, available, needed) rows
it labels INFEASIBLE and prints; the function only reports — it raises
nothing, returns nothing, and is never called by main.py. -/
def checkFeasibility (cat : CatalogData) : List (CName × KName × Nat × Nat) :=
  cat.classes.flatMap (fun g => g.2.filterMap (fun co =>
    if availableCount cat g.1 co.name < co.periods_per_week then
      some (g.1, co.name, availableCount cat g.1 co.name, co.periods_per_week)
    else none))

/-- Mirrors `_validate_data`: it computes and prints each class's total weekly
periods and returns no verdict at all. -/
def validateData (cat : CatalogData) : List (CName × Nat) :=
  cat.classes.map (fun g => (g.1, (g.2.map (fun co => co.periods_per_week)).sum))

/-- The stages main.py executes once the time-limit argument parses. -/
inductive Stage
  | validateStage | buildStage | solveStage
deriving DecidableEq, Repr

/-- Mirrors the control flow of main.py with `ClassScheduleSolver`:
construction runs `_validate_data`, then `build_model`, then `solve`; no
branch consults any feasibility result, so the engine stage is reached for
every catalog. -/
def mainStages (_cat : CatalogData) : List Stage :=
  [.validateStage, .buildStage, .solveStage]

/-- A catalog whose class 9-A needs 36 weekly periods of a single course,
exceeding its 33 non-excluded slots. -/
def overfullCatalog : CatalogData :=
  ⟨[(.c9A, [⟨.algebra, 36, [.yuhan], false⟩])], excludedTimeSlots, requiredTimeSlots⟩

/-- C8 evaluation: on an overfull catalog the feasibility script does detect
the deficit (33 available < 36 needed) but only as a printed report, and
`_validate_data` merely returns the totals; the solver pipeline reaches the
engine's solve stage for every catalog — nothing rejects the run beforehand. -/
theorem claim_C8 :
    checkFeasibility overfullCatalog = [(.c9A, .algebra, 33, 36)] ∧
    validateData overfullCatalog = [(.c9A, 36)] ∧
    (∀ cat : CatalogData, Stage.solveStage ∈ mainStages cat) := by
  refine ⟨rfl, rfl, ?_⟩
  intro cat
  simp [mainStages]

/-- The engine statuses the solver interface distinguishes. -/
inductive CpStatus
  | optimal | feasible | infeasible | unknown | modelInvalid
deriving DecidableEq, Repr

/-- Mirrors the branch structure of `ClassScheduleSolver.solve`: True on
OPTIMAL, True on FEASIBLE (the accepted timeout-with-solution case), False
otherwise. -/
def solveReturns (st : CpStatus) : Bool :=
  match st with
  | .optimal => true
  | .feasible => true
  | _ => false

/-- Mirrors `get_solution`: None unless the stored status is OPTIMAL or
FEASIBLE, otherwise the flat dictionary of the engine's valuation. -/
def getSolutionOpt (st : CpStatus) (A : Assignment) : Option SolMap :=
  if st = .optimal ∨ st = .feasible then some (flatSol A) else none

/-- C9: `solve` reports success exactly on status OPTIMAL or FEASIBLE (so a
feasible assignment found within an expired budget is accepted), during every
other status the run reports no solution and `get_solution` returns none. -/
theorem claim_C9 :
    ∀ (st : CpStatus) (A : Assignment),
      (solveReturns st = true ↔ (st = .optimal ∨ st = .feasible)) ∧
      (solveReturns st = false → getSolutionOpt st A = none) ∧
      ((getSolutionOpt st A).isSome ↔ solveReturns st = true) := by
  intro st A
  cases st <;> simp [solveReturns, getSolutionOpt]

/-- Witness for C9: with status UNKNOWN, no assignment is returned. -/
theorem claim_C9_witness : getSolutionOpt .unknown sigmaStar = none :=
  (claim_C9 .unknown sigmaStar).2.1 rfl

/-- Teacher value stored by `get_solution`,
`classes[class_name].courses[course_name].teacher`. -/
def teachersOf (c : CName) (k : KName) : List TName :=
  match (coursesOf c).find? (fun co => co.name == k) with
  | some co => co.teachers
  | none => []

/-- Python-dictionary insertion: overwrite the value in place if the key is
present, append otherwise. -/
def upsert (l : List ((CName × Nat × Nat) × (KName × List TName)))
    (kv : (CName × Nat × Nat) × (KName × List TName)) :
    List ((CName × Nat × Nat) × (KName × List TName)) :=
  if (l.map Prod.fst).contains kv.1 then
    l.map (fun e => if e.1 = kv.1 then kv else e)
  else l ++ [kv]

/-- The flat dictionary `get_solution` builds, as its entry list in insertion
order: iterate the schedule variables in creation order and insert one entry
per variable valued 1, keyed (class, day, period), valued (course, teacher). -/
def solutionEntries (A : Assignment) : List ((CName × Nat × Nat) × (KName × List TName)) :=
  createdVars.foldl (fun acc key =>
    match key with
    | (c, k, d, p) =>
      if A c k d p then upsert acc ((c, d, p), (k, teachersOf c k)) else acc) []

/-- The dictionary keys are pairwise distinct. -/
def KeysNodup (l : List ((CName × Nat × Nat) × (KName × List TName))) : Prop :=
  (l.map Prod.fst).Nodup

/-- Insertion preserves key distinctness. -/
theorem upsert_keysNodup (l : List ((CName × Nat × Nat) × (KName × List TName)))
    (kv : (CName × Nat × Nat) × (KName × List TName)) (h : KeysNodup l) :
    KeysNodup (upsert l kv) := by
  rw [upsert]
  by_cases hc : ((l.map Prod.fst).contains kv.1) = true
  · rw [if_pos hc]
    have hkeys : (l.map (fun e => if e.1 = kv.1 then kv else e)).map Prod.fst
        = l.map Prod.fst := by
      rw [List.map_map]
      refine List.map_congr_left (fun e _ => ?_)
      by_cases he2 : e.1 = kv.1
      · simp [he2]
      · simp [he2]
    rw [KeysNodup, hkeys]
    exact h
  · rw [if_neg hc]
    rw [KeysNodup, List.map_append]
    rw [List.nodup_append]
    refine ⟨h, by simp, ?_⟩
    intro x hx hx2
    simp only [List.map_cons, List.map_nil, List.mem_singleton] at hx2
    subst hx2
    exact hc (List.elem_iff.mpr hx)

/-- The whole insertion fold preserves key distinctness. -/
theorem foldl_upsert_keysNodup (A : Assignment)
    (keys : List (CName × KName × Nat × Nat))
    (acc : List ((CName × Nat × Nat) × (KName × List TName))) (h : KeysNodup acc) :
    KeysNodup (keys.foldl (fun acc key =>
      match key with
      | (c, k, d, p) =>
        if A c k d p then upsert acc ((c, d, p), (k, teachersOf c k)) else acc) acc) := by
  induction keys generalizing acc with
  | nil => exact h
  | cons x xs ih =>
    obtain ⟨c, k, d, p⟩ := x
    simp only [List.foldl_cons]
    cases hA : A c k d p
    · exact ih acc (by simpa using h)
    · exact ih _ (upsert_keysNodup acc _ h)

/-- Distinct keys force value agreement. -/
theorem keysNodup_unique {l : List ((CName × Nat × Nat) × (KName × List TName))}
    (h : KeysNodup l) {key : CName × Nat × Nat} {v w : KName × List TName}
    (hv : (key, v) ∈ l) (hw : (key, w) ∈ l) : v = w := by
  induction l with
  | nil => cases hv
  | cons x xs ih =>
    rw [KeysNodup, List.map_cons, List.nodup_cons] at h
    rcases List.mem_cons.mp hv with rfl | hv2
    · rcases List.mem_cons.mp hw with hw1 | hw2
      · injection hw1 with h1 h2
        exact h2.symm
      · exact absurd (List.mem_map.mpr ⟨(key, w), hw2, rfl⟩) h.1
    · rcases List.mem_cons.mp hw with rfl | hw2
      · exact absurd (List.mem_map.mpr ⟨(key, v), hv2, rfl⟩) h.1
      · exact ih h.2 hv2 hw2

/-- C10: for every valuation of the engine's variables — whether or not the
slot-exclusivity constraint holds of it — the flat dictionary `get_solution`
builds maps each (class, day, period) key to at most one (course, teacher)
value, because the dictionary is keyed by the class-slot triple. -/
theorem claim_C10 :
    ∀ (A : Assignment) (key : CName × Nat × Nat) (v w : KName × List TName),
      (key, v) ∈ solutionEntries A → (key, w) ∈ solutionEntries A → v = w := by
  intro A key v w hv hw
  have hnodup : KeysNodup (solutionEntries A) :=
    foldl_upsert_keysNodup A createdVars [] (by simp [KeysNodup])
  exact keysNodup_unique hnodup hv hw

/-- An assignment that sets exactly one variable (and violates nothing else to
exercise the dictionary on). -/
def singletonAssign : Assignment := fun c k d p =>
  c == .c9A && k == .algebra && d == 0 && p == 1

set_option maxRecDepth 100000 in
/-- Witness for C10: the single-entry dictionary of `singletonAssign` maps
9-A Monday period 1 to Algebra with its teacher, uniquely. -/
theorem claim_C10_witness :
    ((CName.c9A, 0, 1), (KName.algebra, [TName.yuhan])) ∈ solutionEntries singletonAssign ∧
    (KName.algebra, ([TName.yuhan] : List TName)) = (KName.algebra, [TName.yuhan]) := by
  refine ⟨by decide, ?_⟩
  exact claim_C10 singletonAssign (.c9A, 0, 1) _ _ (by decide) (by decide)

end ClassSched
